import Mathlib

/-!
# Strategos — formal verification of the spec against the source

This file embeds, as executable Lean definitions, the parts of the
Strategos repository that the frozen claims are about:

* the `extractFromText` metric parsers of
  `frontend/app/dashboard/workspace/page.tsx` and `tools/simulate_flow.js`
  (via a small backtracking regular-expression matcher that mirrors
  JavaScript leftmost, greedy, first-alternative matching semantics);
* the `replayComparisonRows` helper of the replay console page;
* the declared output-contract shapes of `frontend/lib/types.ts`;
* the deterministic scoring engine, state classifier and snapshot
  persister, modelled from the specification (the backend implementation
  `backend/app/services/engine.py` is not part of the available sources).

Numeric values are modelled as exact rationals (`ℚ`): every numeric
literal appearing in the claims is an exact decimal, so rational
arithmetic agrees with the intended values.
-/

namespace Strategos

/-! ## A tiny regular-expression engine

JavaScript `String.prototype.match` semantics for the patterns used by
`extractFromText`: the match is the leftmost one; quantifiers are greedy
with backtracking; alternatives are tried left to right.  All the
quantifiers (`*`, `+`) in the source patterns apply to single character
classes, which the syntax below enforces, so matching terminates
structurally.  Capture groups record the consumed substring.
-/

/-- Character classes appearing in the source regexes: `\d`, `\s`
(modelled by the common whitespace characters) and `[^\d$]`. -/
inductive CC
  | digit
  | space
  | nonDigitDollar
  deriving Repr, DecidableEq

def CC.mem : CC → Char → Bool
  | .digit, c => c.isDigit
  | .space, c => c = ' ' || c = '\t' || c = '\n' || c = '\r' || c = '\x0c' || c = '\x0b'
  | .nonDigitDollar, c => !(c.isDigit || c = '$')

/-- Regular expressions.  `lit` is a literal character sequence, `cls`
a single class character, `starC` a greedy `*` over a class, `opt` a
greedy `?`, `alt` an ordered alternation, `grp` a numbered capture
group. -/
inductive RE
  | eps
  | lit (cs : List Char)
  | cls (cc : CC)
  | starC (cc : CC)
  | opt (r : RE)
  | cat (a b : RE)
  | alt (a b : RE)
  | grp (n : Nat) (r : RE)
  deriving Repr

/-- `+` over a character class. -/
def RE.plusC (cc : CC) : RE := .cat (.cls cc) (.starC cc)

/-- Literal from a string. -/
def RE.str (s : String) : RE := .lit s.data

abbrev Caps := List (Nat × List Char)

/-- Greedy star over a character class with backtracking continuation:
consume as many class characters as possible, then give characters back
one by one until the continuation succeeds. -/
def starRun {α : Type} (cc : CC) (k : List Char → Option α) : List Char → Option α
  | [] => k []
  | c :: rest =>
    if CC.mem cc c then
      match starRun cc k rest with
      | some v => some v
      | none => k (c :: rest)
    else
      k (c :: rest)

/-- Backtracking matcher in continuation style.  `mt r s caps k` tries
to match `r` at the start of `s`; on each way of matching it calls
`k remaining captures`, backtracking while `k` returns `none`. -/
def mt {α : Type} : RE → List Char → Caps → (List Char → Caps → Option α) → Option α
  | .eps, s, caps, k => k s caps
  | .lit cs, s, caps, k =>
    if cs.isPrefixOf s then k (s.drop cs.length) caps else none
  | .cls cc, s, caps, k =>
    match s with
    | [] => none
    | c :: rest => if CC.mem cc c then k rest caps else none
  | .starC cc, s, caps, k => starRun cc (fun s' => k s' caps) s
  | .opt r, s, caps, k =>
    match mt r s caps k with
    | some v => some v
    | none => k s caps
  | .cat a b, s, caps, k => mt a s caps (fun s' caps' => mt b s' caps' k)
  | .alt a b, s, caps, k =>
    match mt a s caps k with
    | some v => some v
    | none => mt b s caps k
  | .grp n r, s, caps, k =>
    mt r s caps (fun s' caps' => k s' ((n, s.take (s.length - s'.length)) :: caps'))

/-- Unanchored search (JavaScript `match` without `^`): try the pattern
at each start position from the left, returning the captures of the
leftmost match. -/
def searchFrom (r : RE) : List Char → Option Caps
  | [] => mt r [] [] (fun _ caps => some caps)
  | c :: rest =>
    match mt r (c :: rest) [] (fun _ caps => some caps) with
    | some caps => some caps
    | none => searchFrom r rest

/-- Fully anchored match (`^ … $`): the pattern must consume the whole
input. -/
def matchExact (r : RE) (s : List Char) : Option Caps :=
  mt r s [] (fun s' caps => if s' = [] then some caps else none)

/-- Capture-group lookup: `m[n]`.  A group that did not participate in
the match is `none` (JavaScript `undefined`). -/
def capGet (caps : Caps) (n : Nat) : Option (List Char) :=
  (caps.find? (fun p => p.1 = n)).map (·.2)

/-- `.test`: does the pattern match anywhere? -/
def test (r : RE) (t : List Char) : Bool :=
  (searchFrom r t).isSome

/-! ### Properties of the matcher

`AlphaOK p r`: every character a match of `r` consumes satisfies `p`.
`forcesB p r`: every successful match of `r` consumes at least one
character satisfying `p`.  These are used to show that certain pattern
combinations cannot both match the same text. -/

def AlphaOK (p : Char → Bool) : RE → Prop
  | .eps => True
  | .lit cs => cs.all p = true
  | .cls cc => ∀ c, CC.mem cc c = true → p c = true
  | .starC cc => ∀ c, CC.mem cc c = true → p c = true
  | .opt r => AlphaOK p r
  | .cat a b => AlphaOK p a ∧ AlphaOK p b
  | .alt a b => AlphaOK p a ∧ AlphaOK p b
  | .grp _ r => AlphaOK p r

theorem alphaOK_true : ∀ r : RE, AlphaOK (fun _ => true) r := by
  intro r
  induction r with
  | eps => trivial
  | lit cs => simp [AlphaOK]
  | cls cc => intro c _; rfl
  | starC cc => intro c _; rfl
  | opt r ih => exact ih
  | cat a b iha ihb => exact ⟨iha, ihb⟩
  | alt a b iha ihb => exact ⟨iha, ihb⟩
  | grp n r ih => exact ih

def forcesB (p : Char → Bool) : RE → Bool
  | .eps => false
  | .lit cs => cs.any p
  | .cls _ => false
  | .starC _ => false
  | .opt _ => false
  | .cat a b => forcesB p a || forcesB p b
  | .alt a b => forcesB p a && forcesB p b
  | .grp _ r => forcesB p r

theorem starRun_split {α : Type} (cc : CC) (k : List Char → Option α) (res : α) :
    ∀ s, starRun cc k s = some res →
      ∃ pre suf, s = pre ++ suf ∧ (∀ c ∈ pre, CC.mem cc c = true) ∧ k suf = some res := by
  intro s
  induction s with
  | nil => intro h; exact ⟨[], [], rfl, by simp, h⟩
  | cons c rest ih =>
    intro h
    by_cases hc : CC.mem cc c = true
    · rw [starRun, if_pos hc] at h
      rcases hr : starRun cc k rest with _ | v
      · rw [hr] at h
        exact ⟨[], c :: rest, rfl, by simp, h⟩
      · rw [hr] at h
        obtain ⟨pre, suf, hs, hall, hk⟩ := ih (by rw [hr]; exact h)
        refine ⟨c :: pre, suf, by simp [hs], ?_, hk⟩
        intro d hd
        rcases List.mem_cons.mp hd with hd | hd
        · subst hd; exact hc
        · exact hall d hd
    · rw [starRun, if_neg hc] at h
      exact ⟨[], c :: rest, rfl, by simp, h⟩

/-- A successful match splits the input into a consumed prefix — all of
whose characters come from the pattern's alphabet — and a remainder on
which the continuation succeeded. -/
theorem mt_alpha {α : Type} (p : Char → Bool) (res : α) :
    ∀ r : RE, AlphaOK p r → ∀ s caps k, mt r s caps k = some res →
      ∃ pre suf caps', s = pre ++ suf ∧ (∀ c ∈ pre, p c = true) ∧ k suf caps' = some res := by
  intro r
  induction r with
  | eps =>
    intro _ s caps k h
    exact ⟨[], s, caps, rfl, by simp, h⟩
  | lit cs =>
    intro hA s caps k h
    rw [mt] at h
    by_cases hp : cs.isPrefixOf s
    · rw [if_pos hp] at h
      obtain ⟨suf, hsuf⟩ := List.isPrefixOf_iff_prefix.mp hp
      refine ⟨cs, suf, caps, hsuf.symm, ?_, ?_⟩
      · intro c hc
        exact List.all_eq_true.mp hA c hc
      · rw [← hsuf, List.drop_left] at h
        exact h
    · rw [if_neg hp] at h
      cases h
  | cls cc =>
    intro hA s caps k h
    cases s with
    | nil => rw [mt] at h; cases h
    | cons c rest =>
      rw [mt] at h
      by_cases hc : CC.mem cc c = true
      · rw [if_pos hc] at h
        exact ⟨[c], rest, caps, rfl, by simpa using hA c hc, h⟩
      · rw [if_neg hc] at h
        cases h
  | starC cc =>
    intro hA s caps k h
    rw [mt] at h
    obtain ⟨pre, suf, hs, hall, hk⟩ := starRun_split cc (fun s' => k s' caps) res s h
    exact ⟨pre, suf, caps, hs, fun c hc => hA c (hall c hc), hk⟩
  | opt r ih =>
    intro hA s caps k h
    rw [mt] at h
    rcases hr : mt r s caps k with _ | v
    · rw [hr] at h
      exact ⟨[], s, caps, rfl, by simp, h⟩
    · rw [hr] at h
      cases h
      exact ih hA s caps k hr
  | cat a b iha ihb =>
    intro hA s caps k h
    rw [mt] at h
    obtain ⟨pre₁, suf₁, caps₁, hs₁, hall₁, hk₁⟩ := iha hA.1 s caps _ h
    obtain ⟨pre₂, suf, caps', hs₂, hall₂, hk₂⟩ := ihb hA.2 suf₁ caps₁ k hk₁
    refine ⟨pre₁ ++ pre₂, suf, caps', by simp [hs₁, hs₂], ?_, hk₂⟩
    intro c hc
    rcases List.mem_append.mp hc with hc | hc
    · exact hall₁ c hc
    · exact hall₂ c hc
  | alt a b iha ihb =>
    intro hA s caps k h
    rw [mt] at h
    rcases ha : mt a s caps k with _ | v
    · rw [ha] at h
      exact ihb hA.2 s caps k h
    · rw [ha] at h
      cases h
      exact iha hA.1 s caps k ha
  | grp n r ih =>
    intro hA s caps k h
    rw [mt] at h
    obtain ⟨pre, suf, caps₁, hs, hall, hk⟩ := ih hA s caps _ h
    exact ⟨pre, suf, (n, s.take (s.length - suf.length)) :: caps₁, hs, hall, hk⟩

/-- A successful match of a pattern that forces a `p`-character consumed
one: some character of the input satisfies `p`. -/
theorem mt_forces {α : Type} (p : Char → Bool) :
    ∀ r : RE, forcesB p r = true → ∀ s caps k (res : α), mt r s caps k = some res →
      ∃ c ∈ s, p c = true := by
  intro r
  induction r with
  | eps => intro hF; cases hF
  | lit cs =>
    intro hF s caps k res h
    rw [mt] at h
    by_cases hp : cs.isPrefixOf s
    · obtain ⟨c, hc, hpc⟩ := List.any_eq_true.mp hF
      obtain ⟨suf, hsuf⟩ := List.isPrefixOf_iff_prefix.mp hp
      exact ⟨c, by rw [← hsuf]; exact List.mem_append_left _ hc, hpc⟩
    · rw [if_neg hp] at h
      cases h
  | cls cc => intro hF; cases hF
  | starC cc => intro hF; cases hF
  | opt r ih => intro hF; cases hF
  | cat a b iha ihb =>
    intro hF s caps k res h
    rw [mt] at h
    rcases Bool.or_eq_true_iff.mp hF with hFa | hFb
    · exact iha hFa s caps _ res h
    · obtain ⟨pre₁, suf₁, caps₁, hs₁, _, hk₁⟩ :=
        mt_alpha (fun _ => true) res a (alphaOK_true a) s caps _ h
      obtain ⟨c, hc, hpc⟩ := ihb hFb suf₁ caps₁ k res hk₁
      exact ⟨c, by rw [hs₁]; exact List.mem_append_right _ hc, hpc⟩
  | alt a b iha ihb =>
    intro hF s caps k res h
    rw [mt] at h
    rcases ha : mt a s caps k with _ | v
    · rw [ha] at h
      exact ihb (Bool.and_eq_true_iff.mp hF).2 s caps k res h
    · rw [ha] at h
      exact iha (Bool.and_eq_true_iff.mp hF).1 s caps k v ha
  | grp n r ih =>
    intro hF s caps k res h
    rw [mt] at h
    exact ih hF s caps _ res h

theorem searchFrom_forces (p : Char → Bool) (r : RE) (hF : forcesB p r = true) :
    ∀ t caps, searchFrom r t = some caps → ∃ c ∈ t, p c = true := by
  intro t
  induction t with
  | nil =>
    intro caps h
    rw [searchFrom] at h
    exact mt_forces p r hF [] [] _ caps h
  | cons c rest ih =>
    intro caps h
    rw [searchFrom] at h
    rcases hm : mt r (c :: rest) [] (fun _ caps => some caps) with _ | v
    · rw [hm] at h
      obtain ⟨d, hd, hpd⟩ := ih caps h
      exact ⟨d, List.mem_cons_of_mem c hd, hpd⟩
    · rw [hm] at h
      exact mt_forces p r hF (c :: rest) [] _ v hm

/-- A fully anchored match draws every character of the input from the
pattern's alphabet. -/
theorem matchExact_alpha (p : Char → Bool) (r : RE) (hA : AlphaOK p r)
    (s : List Char) (caps : Caps) (h : matchExact r s = some caps) :
    ∀ c ∈ s, p c = true := by
  obtain ⟨pre, suf, caps', hs, hall, hk⟩ := mt_alpha p caps r hA s [] _ h
  by_cases hsuf : suf = []
  · subst hsuf
    intro c hc
    exact hall c (by simpa [hs] using hc)
  · rw [if_neg hsuf] at hk
    cases hk

/-- Every capture list the matcher hands to its continuation consists of
infixes of the searched text: the continuation is only ever called on
suffixes of the input, and each capture takes a prefix of the string at
its group's start. -/
theorem mt_caps_infix {α : Type} (C : Prop) (t : List Char) (res : α) :
    ∀ r : RE, ∀ s caps k, s <:+ t → (∀ e ∈ caps, (e : Nat × List Char).2 <:+: t) →
      (∀ s' caps', s' <:+ s → (∀ e ∈ caps', (e : Nat × List Char).2 <:+: t) →
        k s' caps' = some res → C) →
      mt r s caps k = some res → C := by
  intro r
  induction r with
  | eps =>
    intro s caps k hs hcaps hk h
    exact hk s caps List.suffix_rfl hcaps h
  | lit cs =>
    intro s caps k hs hcaps hk h
    rw [mt] at h
    by_cases hp : cs.isPrefixOf s
    · rw [if_pos hp] at h
      exact hk _ caps (List.drop_suffix _ _) hcaps h
    · rw [if_neg hp] at h
      cases h
  | cls cc =>
    intro s caps k hs hcaps hk h
    cases s with
    | nil => rw [mt] at h; cases h
    | cons c rest =>
      rw [mt] at h
      by_cases hc : CC.mem cc c = true
      · rw [if_pos hc] at h
        exact hk rest caps (List.suffix_cons c rest) hcaps h
      · rw [if_neg hc] at h
        cases h
  | starC cc =>
    intro s caps k hs hcaps hk h
    rw [mt] at h
    obtain ⟨pre, suf, hsplit, _, hkk⟩ := starRun_split cc (fun s' => k s' caps) res s h
    exact hk suf caps ⟨pre, hsplit.symm⟩ hcaps hkk
  | opt r ih =>
    intro s caps k hs hcaps hk h
    rw [mt] at h
    rcases hr : mt r s caps k with _ | v
    · rw [hr] at h
      exact hk s caps List.suffix_rfl hcaps h
    · rw [hr] at h
      cases h
      exact ih s caps k hs hcaps hk hr
  | cat a b iha ihb =>
    intro s caps k hs hcaps hk h
    rw [mt] at h
    refine iha s caps _ hs hcaps ?_ h
    intro s' caps' hs' hcaps' hb
    refine ihb s' caps' k (hs'.trans hs) hcaps' ?_ hb
    intro s'' caps'' hs'' hcaps'' hkk
    exact hk s'' caps'' (hs''.trans hs') hcaps'' hkk
  | alt a b iha ihb =>
    intro s caps k hs hcaps hk h
    rw [mt] at h
    rcases ha : mt a s caps k with _ | v
    · rw [ha] at h
      exact ihb s caps k hs hcaps hk h
    · rw [ha] at h
      cases h
      exact iha s caps k hs hcaps hk ha
  | grp n r ih =>
    intro s caps k hs hcaps hk h
    rw [mt] at h
    refine ih s caps _ hs hcaps ?_ h
    intro s' caps' hs' hcaps' hkk
    refine hk s' _ hs' ?_ hkk
    intro e he
    rcases List.mem_cons.mp he with he | he
    · subst he
      exact ((List.take_prefix _ s).isInfix).trans (hs.isInfix)
    · exact hcaps' e he

/-- Captures of an unanchored search are infixes of the searched text. -/
theorem searchFrom_caps_infix (r : RE) :
    ∀ t caps, searchFrom r t = some caps → ∀ e ∈ caps, (e : Nat × List Char).2 <:+: t := by
  intro t
  induction t with
  | nil =>
    intro caps h e he
    rw [searchFrom] at h
    refine mt_caps_infix ((e : Nat × List Char).2 <:+: ([] : List Char)) [] caps r [] []
      _ List.suffix_rfl (by simp) ?_ h
    intro s' caps' _ hcaps' hkk
    cases hkk
    exact hcaps' e he
  | cons c rest ih =>
    intro caps h e he
    rw [searchFrom] at h
    rcases hm : mt r (c :: rest) [] (fun _ caps => some caps) with _ | v
    · rw [hm] at h
      exact (ih caps h e he).trans (List.suffix_cons c rest).isInfix
    · rw [hm] at h
      cases h
      refine mt_caps_infix ((e : Nat × List Char).2 <:+: (c :: rest)) (c :: rest) caps r
        (c :: rest) [] _ List.suffix_rfl (by simp) ?_ hm
      intro s' caps' _ hcaps' hkk
      cases hkk
      exact hcaps' e he

/-- Captures of an anchored match are infixes of the matched text. -/
theorem matchExact_caps_infix (r : RE) (s : List Char) (caps : Caps)
    (h : matchExact r s = some caps) : ∀ e ∈ caps, (e : Nat × List Char).2 <:+: s := by
  intro e he
  refine mt_caps_infix ((e : Nat × List Char).2 <:+: s) s caps r s [] _
    List.suffix_rfl (by simp) ?_ h
  intro s' caps' _ hcaps' hkk
  by_cases hsuf : s' = []
  · rw [if_pos hsuf] at hkk
    cases hkk
    exact hcaps' e he
  · rw [if_neg hsuf] at hkk
    cases hkk

/-- Right-nested concatenation of a pattern sequence. -/
def cats : List RE → RE
  | [] => .eps
  | [r] => r
  | r :: rs => .cat r (cats rs)

/-! ## The regexes of `extractFromText`

Transcribed one-to-one from `frontend/app/dashboard/workspace/page.tsx`
(lines 80–152) and `tools/simulate_flow.js` (lines 12–68).  The input is
lowercased before matching, so the `i` flag is inert and all literals
are lowercase.  Alternatives keep their source order (significant: in
`(m|million|bn|billion|b)` the branch `m` is tried before `million`). -/

/-- `\s*` -/
def ws : RE := .starC .space

/-- `\s+` -/
def wsP : RE := RE.plusC .space

/-- `(\d+(?:\.\d+)?)` — capture group 1, the number. -/
def numGrp : RE :=
  .grp 1 (.cat (RE.plusC .digit) (.opt (.cat (.lit ['.']) (RE.plusC .digit))))

/-- `m|million|bn|billion|b` in source order. -/
def unitAlt : RE :=
  .alt (RE.str "m") (.alt (RE.str "million") (.alt (RE.str "bn")
    (.alt (RE.str "billion") (RE.str "b"))))

/-- `(m|million|bn|billion|b)?` — optional capture group 2. -/
def unitOpt : RE := .opt (.grp 2 unitAlt)

/-- `(m|million|bn|billion|b)` — mandatory capture group 2. -/
def unitGrp : RE := .grp 2 unitAlt

/-- `\$?` -/
def dollarOpt : RE := .opt (.lit ['$'])

/-- `(?:in\s+)?` -/
def inOpt : RE := .opt (.cat (RE.str "in") wsP)

/-- `(?:operating\s+)?` -/
def operatingOpt : RE := .opt (.cat (RE.str "operating") wsP)

/-- `(?:technical\s+)?` -/
def technicalOpt : RE := .opt (.cat (RE.str "technical") wsP)

/-- `costs?` -/
def costsLit : RE := .cat (RE.str "cost") (.opt (RE.str "s"))

/-- `expenses?` -/
def expensesLit : RE := .cat (RE.str "expense") (.opt (RE.str "s"))

/-- `(?:at|of|around|is|:)?` (margin / debt prefix). -/
def atOfColon : RE :=
  .opt (.alt (RE.str "at") (.alt (RE.str "of") (.alt (RE.str "around")
    (.alt (RE.str "is") (RE.str ":")))))

/-- `/revenue[^\d$]*\$?\s*(\d+(?:\.\d+)?)\s*(m|million|bn|billion|b)?/i` -/
def revPat1 : RE :=
  cats [RE.str "revenue", .starC .nonDigitDollar, dollarOpt, ws, numGrp, ws, unitOpt]

/-- `/\$\s*(\d+(?:\.\d+)?)\s*(m|million|bn|billion|b)?\s*(?:in\s+)?revenue/i` -/
def revPat2 : RE :=
  cats [.lit ['$'], ws, numGrp, ws, unitOpt, ws, inOpt, RE.str "revenue"]

/-- `/(\d+(?:\.\d+)?)\s*(m|million|bn|billion|b)?\s*(?:in\s+)?(?:revenue|turnover|sales)/i` -/
def revPat3 : RE :=
  cats [numGrp, ws, unitOpt, ws, inOpt,
    .alt (RE.str "revenue") (.alt (RE.str "turnover") (RE.str "sales"))]

def revPatterns : List RE := [revPat1, revPat2, revPat3]

/-- `/(?:operating\s+)?costs?\s+(?:at|of|around|is|are)\s+\$?\s*(num)\s*(unit)?/i` -/
def costPat1 : RE :=
  cats [operatingOpt, costsLit, wsP,
    .alt (RE.str "at") (.alt (RE.str "of") (.alt (RE.str "around")
      (.alt (RE.str "is") (RE.str "are")))),
    wsP, dollarOpt, ws, numGrp, ws, unitOpt]

/-- `/\$?\s*(num)\s*(unit)?\s*(?:in\s+)?(?:operating\s+)?costs?/i` -/
def costPat2 : RE :=
  cats [dollarOpt, ws, numGrp, ws, unitOpt, ws, inOpt, operatingOpt, costsLit]

/-- `/(?:expenses?|opex|expenditure)\s+(?:of|at|around|is)?\s*\$?\s*(num)\s*(unit)?/i` -/
def costPat3 : RE :=
  cats [.alt expensesLit (.alt (RE.str "opex") (RE.str "expenditure")), wsP,
    .opt (.alt (RE.str "of") (.alt (RE.str "at") (.alt (RE.str "around") (RE.str "is")))),
    ws, dollarOpt, ws, numGrp, ws, unitOpt]

/-- `/\$?\s*(num)\s*(unit)\s+(?:in\s+)?(?:costs?|opex|expenses?)/i` -/
def costPat4 : RE :=
  cats [dollarOpt, ws, numGrp, ws, unitGrp, wsP, inOpt,
    .alt costsLit (.alt (RE.str "opex") expensesLit)]

def costPatterns : List RE := [costPat1, costPat2, costPat3, costPat4]

/-- `/^\s*\$?\s*(num)\s*(m|million|bn|billion|b)\s*$/i` — the standalone
compact number ("1bn", "$800m"), matched against the whole input. -/
def standalonePat : RE :=
  cats [ws, dollarOpt, ws, numGrp, ws, unitGrp, ws]

/-- `/margin\s*(?:at|of|around|is|:)?\s*(num)\s*%?/i` -/
def marginPat1 : RE :=
  cats [RE.str "margin", ws, atOfColon, ws, numGrp, ws, .opt (.lit ['%'])]

/-- `/(num)\s*%\s*(?:operating\s+)?margin/i` -/
def marginPat2 : RE :=
  cats [numGrp, ws, .lit ['%'], ws, operatingOpt, RE.str "margin"]

/-- `/(num)\s*(?:%|percent)\s*(?:margin)?/i` -/
def marginPat3 : RE :=
  cats [numGrp, ws, .alt (.lit ['%']) (RE.str "percent"), ws, .opt (RE.str "margin")]

def marginPatterns : List RE := [marginPat1, marginPat2, marginPat3]

/-- `/(?:technical\s+)?debt\s*(?:at|of|around|is|:)?\s*(num)\s*%?/i` -/
def debtPat1 : RE :=
  cats [technicalOpt, RE.str "debt", ws, atOfColon, ws, numGrp, ws, .opt (.lit ['%'])]

/-- `/(num)\s*%\s*(?:technical\s+)?debt/i` -/
def debtPat2 : RE :=
  cats [numGrp, ws, .lit ['%'], ws, technicalOpt, RE.str "debt"]

def debtPatterns : List RE := [debtPat1, debtPat2]

/-- `(?:technical\s+)?debt` -/
def techDebtWord : RE := .cat technicalOpt (RE.str "debt")

/-- Workspace page: `/very\s+high\s+(?:technical\s+)?debt|extremely\s+high\s+debt|huge\s+(?:technical\s+)?debt/` -/
def feVeryHighPat : RE :=
  .alt (cats [RE.str "very", wsP, RE.str "high", wsP, techDebtWord])
    (.alt (cats [RE.str "extremely", wsP, RE.str "high", wsP, RE.str "debt"])
      (cats [RE.str "huge", wsP, techDebtWord]))

/-- Workspace page: `/high\s+(?:technical\s+)?debt|significant\s+(?:technical\s+)?debt|heavy\s+(?:technical\s+)?debt/` -/
def feHighPat : RE :=
  .alt (cats [RE.str "high", wsP, techDebtWord])
    (.alt (cats [RE.str "significant", wsP, techDebtWord])
      (cats [RE.str "heavy", wsP, techDebtWord]))

/-- Workspace page: `/moderate\s+(?:technical\s+)?debt|medium\s+(?:technical\s+)?debt|some\s+(?:technical\s+)?debt/` -/
def feModeratePat : RE :=
  .alt (cats [RE.str "moderate", wsP, techDebtWord])
    (.alt (cats [RE.str "medium", wsP, techDebtWord])
      (cats [RE.str "some", wsP, techDebtWord]))

/-- Workspace page: `/low\s+(?:technical\s+)?debt|minimal\s+(?:technical\s+)?debt|little\s+(?:technical\s+)?debt|clean\s+stack/` -/
def feLowPat : RE :=
  .alt (cats [RE.str "low", wsP, techDebtWord])
    (.alt (cats [RE.str "minimal", wsP, techDebtWord])
      (.alt (cats [RE.str "little", wsP, techDebtWord])
        (cats [RE.str "clean", wsP, RE.str "stack"])))

/-- simulate_flow: `/very\s+high\s+(?:technical\s+)?debt|huge\s+(?:technical\s+)?debt|legacy\s+stack/` -/
def simVeryHighPat : RE :=
  .alt (cats [RE.str "very", wsP, RE.str "high", wsP, techDebtWord])
    (.alt (cats [RE.str "huge", wsP, techDebtWord])
      (cats [RE.str "legacy", wsP, RE.str "stack"]))

/-- simulate_flow: `/high\s+(?:technical\s+)?debt/` -/
def simHighPat : RE := cats [RE.str "high", wsP, techDebtWord]

/-- simulate_flow: `/moderate\s+(?:technical\s+)?debt/` -/
def simModeratePat : RE := cats [RE.str "moderate", wsP, techDebtWord]

/-- simulate_flow: `/low\s+(?:technical\s+)?debt/` -/
def simLowPat : RE := cats [RE.str "low", wsP, techDebtWord]

/-! ## Number parsing and the two `extractFromText` functions -/

/-- Value of a run of decimal digits. -/
def digitsVal (cs : List Char) : Nat :=
  cs.foldl (fun a c => a * 10 + (c.toNat - 48)) 0

/-- `parseFloat` on a string of shape `\d+(\.\d+)?` (the only shape the
capture group 1 can take), as an exact rational. -/
def parseDec (cs : List Char) : ℚ :=
  let ip := cs.takeWhile (fun c => c ≠ '.')
  match cs.dropWhile (fun c => c ≠ '.') with
  | [] => (digitsVal ip : ℚ)
  | _ :: frac => (digitsVal ip : ℚ) + (digitsVal frac : ℚ) / ((10 : ℚ) ^ frac.length)

/-- `u === 'bn' || u === 'billion' || u === 'b'` (the unit capture comes
from the lowercased input, so the source's extra `toLowerCase` is inert). -/
def isBigUnit (u : List Char) : Bool :=
  u = "bn".data || u = "billion".data || u = "b".data

/-- `parseMagnitude` of the workspace page: `parseFloat(num)`, scaled by
1000 for billion units. -/
def parseMagnitude (num unit : List Char) : ℚ :=
  let v := parseDec num
  if isBigUnit unit then v * 1000 else v

/-- `parseMagnitude` of `simulate_flow.js`: identical except that it
first strips commas from the number (`num.replace(/,/g,'')`). -/
def simParseMagnitude (num unit : List Char) : ℚ :=
  let v := parseDec (num.filter (fun c => c ≠ ','))
  if isBigUnit unit then v * 1000 else v

/-- The `for … of patterns { if (m) { …; break } }` loop shared by the
revenue and cost blocks: first matching pattern wins, yielding
`(m[1], m[2] || '')`. -/
def numUnitScan : List RE → List Char → Option (List Char × List Char)
  | [], _ => none
  | p :: ps, t =>
    match searchFrom p t with
    | some caps => some ((capGet caps 1).getD [], (capGet caps 2).getD [])
    | none => numUnitScan ps t

/-- The margin loop: a match is recorded only when
`v >= 0 && v <= 100`; otherwise the loop moves on to the next pattern. -/
def marginScan : List RE → List Char → Option ℚ
  | [], _ => none
  | p :: ps, t =>
    match searchFrom p t with
    | some caps =>
      let v := parseDec ((capGet caps 1).getD [])
      if 0 ≤ v ∧ v ≤ 100 then some v else marginScan ps t
    | none => marginScan ps t

/-- The numeric technical-debt loop (no range guard). -/
def debtScan : List RE → List Char → Option ℚ
  | [], _ => none
  | p :: ps, t =>
    match searchFrom p t with
    | some caps => some (parseDec ((capGet caps 1).getD []))
    | none => debtScan ps t

/-- `text.toLowerCase().replace(/,/g, '')`. -/
def normText (s : String) : List Char :=
  (s.data.map Char.toLower).filter (fun c => c ≠ ',')

/-- The extracted metric map (`Partial<CollectedData>` in the page,
a plain object in the tool).  `none` = the key is absent. -/
structure Extracted where
  revenue : Option ℚ := none
  cost : Option ℚ := none
  margin : Option ℚ := none
  technicalDebt : Option ℚ := none
  deriving Repr, DecidableEq

/-- The `DataField` hint of the workspace page's `extractFromText`. -/
inductive AskedField
  | revenue
  | cost
  | margin
  | technicalDebt
  deriving Repr, DecidableEq

namespace Frontend

/-- The revenue block of the workspace page's `extractFromText`:
first matching context pattern, `parseMagnitude(m[1], m[2] || '')`. -/
def revenueOf (t : List Char) : Option ℚ :=
  (numUnitScan revPatterns t).map (fun p => parseMagnitude p.1 p.2)

/-- The cost block. -/
def costOf (t : List Char) : Option ℚ :=
  (numUnitScan costPatterns t).map (fun p => parseMagnitude p.1 p.2)

/-- The standalone compact-number match (`"1bn"`, `"$800m"`). -/
def standaloneOf (t : List Char) : Option ℚ :=
  (matchExact standalonePat t).map
    (fun caps => parseMagnitude ((capGet caps 1).getD []) ((capGet caps 2).getD []))

/-- The technical-debt keyword fallback of the workspace page. -/
def debtFallback (t : List Char) : Option ℚ :=
  if test feVeryHighPat t then some 92
  else if test feHighPat t then some 78
  else if test feModeratePat t then some 50
  else if test feLowPat t then some 20
  else none

/-- `extractFromText` of `frontend/app/dashboard/workspace/page.tsx`
(lines 80–152): revenue and cost context patterns, the standalone
compact number (assigned only when *neither* revenue nor cost was set,
bound to `standaloneTargetField` when that hint is `cost`), the guarded
margin patterns, the numeric debt patterns and the keyword fallback. -/
def extractFromText (text : String) (standaloneTargetField : Option AskedField := none) :
    Extracted :=
  let t := normText text
  let rev := revenueOf t
  let cost := costOf t
  let rc :=
    if rev = none ∧ cost = none then
      match standaloneOf t with
      | some v => if standaloneTargetField = some .cost then (rev, some v) else (some v, cost)
      | none => (rev, cost)
    else (rev, cost)
  let debt :=
    match debtScan debtPatterns t with
    | some v => some v
    | none => debtFallback t
  { revenue := rc.1, cost := rc.2, margin := marginScan marginPatterns t,
    technicalDebt := debt }

end Frontend

namespace SimFlow

/-- The revenue block of `simulate_flow.js`'s `extractFromText`
(same patterns, comma-stripping `parseMagnitude`). -/
def revenueOf (t : List Char) : Option ℚ :=
  (numUnitScan revPatterns t).map (fun p => simParseMagnitude p.1 p.2)

/-- The cost block. -/
def costOf (t : List Char) : Option ℚ :=
  (numUnitScan costPatterns t).map (fun p => simParseMagnitude p.1 p.2)

/-- The standalone compact-number match. -/
def standaloneOf (t : List Char) : Option ℚ :=
  (matchExact standalonePat t).map
    (fun caps => simParseMagnitude ((capGet caps 1).getD []) ((capGet caps 2).getD []))

/-- The technical-debt keyword fallback of `simulate_flow.js`. -/
def debtFallback (t : List Char) : Option ℚ :=
  if test simVeryHighPat t then some 92
  else if test simHighPat t then some 78
  else if test simModeratePat t then some 50
  else if test simLowPat t then some 20
  else none

/-- `extractFromText` of `tools/simulate_flow.js` (lines 12–68): the
same revenue/cost/margin/debt patterns, but the standalone compact
number is assigned to revenue whenever revenue alone is unset, and the
keyword fallback recognises a different keyword list (`legacy stack`
among the top tier, no `extremely`/`significant`/`heavy`/`medium`/
`some`/`minimal`/`little`/`clean stack` tiers). -/
def extractFromText (text : String) : Extracted :=
  let t := normText text
  let rev := revenueOf t
  let cost := costOf t
  let rev :=
    if rev = none then
      match standaloneOf t with
      | some v => some v
      | none => none
    else rev
  let debt :=
    match debtScan debtPatterns t with
    | some v => some v
    | none => debtFallback t
  { revenue := rev, cost := cost, margin := marginScan marginPatterns t,
    technicalDebt := debt }

end SimFlow

/-! ### Relating the two parsers -/

theorem normText_no_comma (s : String) : ∀ c ∈ normText s, c ≠ ',' := by
  intro c hc
  have h := (List.mem_filter.mp hc).2
  simpa using h

/-- On a comma-free number the two `parseMagnitude`s agree (the
simulation's `replace(/,/g,'')` is the identity there). -/
theorem simParseMagnitude_eq (num u : List Char) (h : ∀ c ∈ num, c ≠ ',') :
    simParseMagnitude num u = parseMagnitude num u := by
  unfold simParseMagnitude parseMagnitude
  have : num.filter (fun c => c ≠ ',') = num :=
    List.filter_eq_self.mpr (fun c hc => by simpa using h c hc)
  rw [this]

/-- The number a revenue/cost scan returns is a piece of the scanned
text (or empty, when the capture did not participate). -/
theorem numUnitScan_num_infix :
    ∀ (pats : List RE) (t num u : List Char), numUnitScan pats t = some (num, u) →
      num = [] ∨ num <:+: t := by
  intro pats
  induction pats with
  | nil => intro t num u h; cases h
  | cons p ps ih =>
    intro t num u h
    rw [numUnitScan] at h
    rcases hs : searchFrom p t with _ | caps
    · rw [hs] at h
      exact ih t num u h
    · rw [hs] at h
      cases h
      rcases hc : capGet caps 1 with _ | cs
      · left; simp [hc]
      · right
        obtain ⟨e, he, hecs⟩ : ∃ e ∈ caps, (e : Nat × List Char).2 = cs := by
          obtain ⟨e, he1, he2⟩ := Option.map_eq_some'.mp hc
          exact ⟨e, List.mem_of_find?_eq_some he1, he2⟩
        have := searchFrom_caps_infix p t caps hs e he
        simpa [hc, hecs] using this

/-- Same for the standalone anchored match. -/
theorem matchExact_num_infix (r : RE) (t : List Char) (caps : Caps)
    (h : matchExact r t = some caps) (n : Nat) :
    (capGet caps n).getD [] = [] ∨ (capGet caps n).getD [] <:+: t := by
  rcases hc : capGet caps n with _ | cs
  · left; simp
  · right
    obtain ⟨e, he1, he2⟩ := Option.map_eq_some'.mp hc
    have := matchExact_caps_infix r t caps h e (List.mem_of_find?_eq_some he1)
    simpa [he2] using this

/-- The characters a standalone compact number can consist of. -/
def allowedStandalone (c : Char) : Bool :=
  CC.mem .space c || c = '$' || c.isDigit || c = '.' ||
    c = 'm' || c = 'i' || c = 'l' || c = 'o' || c = 'n' || c = 'b'

theorem allowed_of_space {c : Char} (h : CC.mem .space c = true) :
    allowedStandalone c = true := by
  simp [allowedStandalone, h]

theorem allowed_of_digit {c : Char} (h : CC.mem .digit c = true) :
    allowedStandalone c = true := by
  simp only [CC.mem] at h
  simp [allowedStandalone, h]

theorem standalone_alphaOK : AlphaOK allowedStandalone standalonePat := by
  simp only [standalonePat, cats, ws, dollarOpt, numGrp, unitGrp, unitAlt, RE.plusC,
    RE.str, AlphaOK]
  repeat' constructor
  all_goals
    first
    | decide
    | exact fun c h => allowed_of_space h
    | exact fun c h => allowed_of_digit h

/-- Every cost context pattern forces a `c` or a `p` (from `cost`,
`opex`, `expense`, `expenditure`) into the text. -/
theorem costScan_forces (t : List Char) (pr : List Char × List Char)
    (h : numUnitScan costPatterns t = some pr) :
    ∃ c ∈ t, (c = 'c' || c = 'p') = true := by
  rw [costPatterns, numUnitScan] at h
  rcases h1 : searchFrom costPat1 t with _ | caps
  · rw [h1, numUnitScan] at h
    rcases h2 : searchFrom costPat2 t with _ | caps
    · rw [h2, numUnitScan] at h
      rcases h3 : searchFrom costPat3 t with _ | caps
      · rw [h3, numUnitScan] at h
        rcases h4 : searchFrom costPat4 t with _ | caps
        · rw [h4, numUnitScan] at h
          cases h
        · exact searchFrom_forces _ costPat4 (by decide) t caps h4
      · exact searchFrom_forces _ costPat3 (by decide) t caps h3
    · exact searchFrom_forces _ costPat2 (by decide) t caps h2
  · exact searchFrom_forces _ costPat1 (by decide) t caps h1

/-- A text that *is* a standalone compact number matches no cost
pattern: the standalone alphabet has no `c` and no `p`. -/
theorem standalone_excludes_cost (t : List Char) (caps : Caps)
    (hst : matchExact standalonePat t = some caps)
    (pr : List Char × List Char) (hc : numUnitScan costPatterns t = some pr) : False := by
  obtain ⟨c, hct, hcp⟩ := costScan_forces t pr hc
  have hall := matchExact_alpha allowedStandalone standalonePat standalone_alphaOK t caps hst
  have hac := hall c hct
  rcases Bool.or_eq_true_iff.mp hcp with h | h
  · have : c = 'c' := by simpa using h
    subst this
    exact absurd hac (by decide)
  · have : c = 'p' := by simpa using h
    subst this
    exact absurd hac (by decide)

/-- On comma-free text (which `normText` always produces) the two
revenue blocks agree. -/
theorem simRev_eq (t : List Char) (ht : ∀ c ∈ t, c ≠ ',') :
    SimFlow.revenueOf t = Frontend.revenueOf t := by
  unfold SimFlow.revenueOf Frontend.revenueOf
  rcases h : numUnitScan revPatterns t with _ | ⟨num, u⟩
  · rfl
  · show some _ = some _
    congr 1
    apply simParseMagnitude_eq
    rcases numUnitScan_num_infix revPatterns t num u h with h0 | hinf
    · subst h0; intro c hc; cases hc
    · intro c hc; exact ht c (hinf.subset hc)

theorem simCost_eq (t : List Char) (ht : ∀ c ∈ t, c ≠ ',') :
    SimFlow.costOf t = Frontend.costOf t := by
  unfold SimFlow.costOf Frontend.costOf
  rcases h : numUnitScan costPatterns t with _ | ⟨num, u⟩
  · rfl
  · show some _ = some _
    congr 1
    apply simParseMagnitude_eq
    rcases numUnitScan_num_infix costPatterns t num u h with h0 | hinf
    · subst h0; intro c hc; cases hc
    · intro c hc; exact ht c (hinf.subset hc)

theorem simSta_eq (t : List Char) (ht : ∀ c ∈ t, c ≠ ',') :
    SimFlow.standaloneOf t = Frontend.standaloneOf t := by
  unfold SimFlow.standaloneOf Frontend.standaloneOf
  rcases h : matchExact standalonePat t with _ | caps
  · rfl
  · show some _ = some _
    congr 1
    apply simParseMagnitude_eq
    rcases matchExact_num_infix standalonePat t caps h 1 with h0 | hinf
    · rw [h0]; intro c hc; cases hc
    · intro c hc; exact ht c (hinf.subset hc)

/-- With no asked-field hint the two functions extract the same revenue:
the only structural difference (the page also requires cost to be unset
before using the standalone number) is unreachable, because a text that
is entirely a standalone compact number contains no `c` or `p` and so
matches no cost pattern. -/
theorem fe_sim_revenue (text : String) :
    (Frontend.extractFromText text none).revenue = (SimFlow.extractFromText text).revenue := by
  have ht := normText_no_comma text
  simp only [Frontend.extractFromText, SimFlow.extractFromText]
  generalize hT : normText text = t at ht ⊢
  have hrev : SimFlow.revenueOf t = Frontend.revenueOf t := simRev_eq t ht
  have hsta : SimFlow.standaloneOf t = Frontend.standaloneOf t := simSta_eq t ht
  rcases hR : Frontend.revenueOf t with _ | rv
  · rcases hC : Frontend.costOf t with _ | cv
    · rcases hS : Frontend.standaloneOf t with _ | sv <;>
        simp [hR, hC, hS, hrev, hsta]
    · rcases hS : Frontend.standaloneOf t with _ | sv
      · simp [hR, hC, hS, hrev, hsta]
      · exfalso
        obtain ⟨caps, hm, _⟩ := Option.map_eq_some'.mp hS
        obtain ⟨pr, hpr, _⟩ := Option.map_eq_some'.mp hC
        exact standalone_excludes_cost t caps hm pr hpr
  · simp [hR, hrev]

/-- With no asked-field hint the two functions extract the same cost. -/
theorem fe_sim_cost (text : String) :
    (Frontend.extractFromText text none).cost = (SimFlow.extractFromText text).cost := by
  have ht := normText_no_comma text
  simp only [Frontend.extractFromText, SimFlow.extractFromText]
  generalize hT : normText text = t at ht ⊢
  have hcost : SimFlow.costOf t = Frontend.costOf t := simCost_eq t ht
  rcases hR : Frontend.revenueOf t with _ | rv <;>
    rcases hC : Frontend.costOf t with _ | cv <;>
      rcases hS : Frontend.standaloneOf t with _ | sv <;>
        simp [hR, hC, hS, hcost]

/-- The two margin extractions are the same code. -/
theorem fe_sim_margin (text : String) (hint : Option AskedField) :
    (Frontend.extractFromText text hint).margin = (SimFlow.extractFromText text).margin := rfl

/-- Whenever a numeric debt pattern matches, the keyword fallbacks are
not consulted and the two functions agree on technical debt. -/
theorem fe_sim_debt (text : String) (hint : Option AskedField) (v : ℚ)
    (h : debtScan debtPatterns (normText text) = some v) :
    (Frontend.extractFromText text hint).technicalDebt
      = (SimFlow.extractFromText text).technicalDebt := by
  simp only [Frontend.extractFromText, SimFlow.extractFromText, h]

/-- The margin loop only ever records a value it has checked to lie in
`[0, 100]`. -/
theorem marginScan_bounds :
    ∀ (pats : List RE) (t : List Char) (v : ℚ), marginScan pats t = some v →
      0 ≤ v ∧ v ≤ 100 := by
  intro pats
  induction pats with
  | nil => intro t v h; cases h
  | cons p ps ih =>
    intro t v h
    rw [marginScan] at h
    rcases hs : searchFrom p t with _ | caps
    · rw [hs] at h
      exact ih t v h
    · simp only [hs] at h
      split at h
      · rename_i hcond
        cases h
        exact hcond
      · exact ih t v h

/-! ## The replay console (`replayComparisonRows`)

Embedding of the `replayComparisonRows` memo of the replay console page
(the file with the `Replay Console` section; lines 142–198): the audit
replay payload is a JSON value; each comparison row renders a stored and
a replayed field as text and flags `match` by string equality of the two
rendered texts. -/

mutual

/-- JSON-like values (the payloads the replay endpoint returns). -/
inductive JVal
  | null
  | bool (b : Bool)
  | num (q : ℚ)
  | str (s : String)
  | arr (a : JArr)
  | obj (o : JObj)

inductive JArr
  | nil
  | cons (hd : JVal) (tl : JArr)

inductive JObj
  | nil
  | cons (name : String) (hd : JVal) (tl : JObj)

end

/-- Property lookup; `none` is JavaScript `undefined` (also the result
of a property access on a non-object). -/
def JObj.find : JObj → String → Option JVal
  | .nil, _ => none
  | .cons n v tl, key => if n = key then some v else JObj.find tl key

def getField : JVal → String → Option JVal
  | .obj o, key => o.find key
  | _, _ => none

/-- JavaScript truthiness. -/
def truthy : JVal → Bool
  | .null => false
  | .bool b => b
  | .num q => q ≠ 0
  | .str s => s ≠ ""
  | .arr _ => true
  | .obj _ => true

/-- `a || b` on a possibly-undefined value. -/
def jsOr (v : Option JVal) (d : JVal) : JVal :=
  match v with
  | some x => if truthy x then x else d
  | none => d

/-- `String(n)` for the numbers that arise here: integers print without
a decimal point; a finite decimal prints its digits with no trailing
zeros (the denominator of such a rational divides a power of ten). -/
def jsNumToString (q : ℚ) : String :=
  if q.den = 1 then toString q.num
  else
    match (List.range 41).find? (fun k => 10 ^ k % q.den = 0) with
    | some k =>
      let sign := if q.num < 0 then "-" else ""
      let scaled := q.num.natAbs * ((10 ^ k) / q.den)
      let ip := scaled / 10 ^ k
      let fr := scaled % 10 ^ k
      let fs := toString fr
      sign ++ toString ip ++ "." ++ String.mk (List.replicate (k - fs.length) '0') ++ fs
    | none => "?"

mutual

/-- `JSON.stringify` (string escaping elided — no payload compared here
contains characters needing escapes). -/
def jstringify : JVal → String
  | .null => "null"
  | .bool b => if b then "true" else "false"
  | .num q => jsNumToString q
  | .str s => "\"" ++ s ++ "\""
  | .arr a => "[" ++ jstringifyArr a ++ "]"
  | .obj o => "\x7b" ++ jstringifyObj o ++ "\x7d"

def jstringifyArr : JArr → String
  | .nil => ""
  | .cons h .nil => jstringify h
  | .cons h tl => jstringify h ++ "," ++ jstringifyArr tl

def jstringifyObj : JObj → String
  | .nil => ""
  | .cons n v .nil => "\"" ++ n ++ "\":" ++ jstringify v
  | .cons n v tl => "\"" ++ n ++ "\":" ++ jstringify v ++ "," ++ jstringifyObj tl

end

/-- The page's `asText`: `null`/`undefined` render as `"-"`, strings as
themselves, numbers and booleans via `String(...)`, everything else via
`JSON.stringify`. -/
def asText : Option JVal → String
  | none => "-"
  | some .null => "-"
  | some (.str s) => s
  | some (.num q) => jsNumToString q
  | some (.bool b) => if b then "true" else "false"
  | some v => jstringify v

/-- One comparison row; `isMatch` is the source's `match` field (a Lean
keyword). -/
structure ReplayRow where
  field : String
  stored : String
  replayed : String
  isMatch : Bool
  deriving Repr, DecidableEq

/-- `replayComparisonRows`: `none` is the absent (`null`) replay result,
for which the memo returns `[]`.  Each row is flagged
`match: row.stored === row.replayed` on the rendered texts.  Note the
source's `input` row renders `storedPayload.input` on *both* sides. -/
def replayComparisonRows : Option JVal → List ReplayRow
  | none => []
  | some r =>
    let storedPayload := jsOr (getField r "stored_payload") (JVal.obj .nil)
    let replaySnapshot := jsOr (getField r "replay_snapshot") (JVal.obj .nil)
    let replayScoreBreakdown := jsOr (getField replaySnapshot "score_breakdown") (JVal.obj .nil)
    let replayModelVersion := jsOr (getField replaySnapshot "model_version") (JVal.obj .nil)
    let rows : List (String × String × String) := [
      ("model_version_id", asText (getField storedPayload "model_version_id"),
        asText (getField replayModelVersion "id")),
      ("state", asText (getField storedPayload "state"), asText (getField replaySnapshot "state")),
      ("total_score", asText (getField storedPayload "total_score"),
        asText (getField replayScoreBreakdown "total_score")),
      ("error", asText (getField storedPayload "error"), asText (getField r "replay_error")),
      ("input", asText (getField storedPayload "input"), asText (getField storedPayload "input"))]
    rows.map (fun row =>
      { field := row.1, stored := row.2.1, replayed := row.2.2,
        isMatch := row.2.1 == row.2.2 })

/-! ## The declared output contract (`frontend/lib/types.ts`)

The field names of the TypeScript interfaces that declare the engine's
invocation output, in declaration order, plus — for the refinement
claim — a second set of definitions that follows the specification's
§6 output contract word for word. -/

namespace TypesTs

/-- `EngineSnapshot` (types.ts lines 45–55). -/
def engineSnapshotFields : List String :=
  ["model_version", "rule_count", "triggered_rule_count", "conditions_evaluated",
   "state", "contributions", "scores", "score_breakdown", "restructuring_actions"]

/-- The inline type of `EngineSnapshot.model_version` (line 46). -/
def modelVersionRefFields : List String := ["id", "name", "tenant_id"]

/-- `Contribution` (lines 13–19). -/
def contributionFields : List String :=
  ["rule_id", "condition_id", "expression", "result", "error"]

/-- `CoefficientContribution` (lines 21–29). -/
def coefficientContributionFields : List String :=
  ["name", "mode", "input", "coefficient", "formula", "contribution", "error"]

/-- `ScoreBreakdown` (lines 31–36). -/
def scoreBreakdownFields : List String :=
  ["weighted_input_score", "rule_impact_score", "total_score", "coefficient_contributions"]

/-- `RestructuringAction` (lines 38–43). -/
def restructuringActionFields : List String :=
  ["restructuring_rule_id", "template_id", "template_name", "payload"]

end TypesTs

namespace SpecContract

/-- The §6 engine-output shape as the specification words it. -/
def outputFields : List String :=
  ["model_version", "rule_count", "triggered_rule_count", "conditions_evaluated",
   "state", "contributions", "score_breakdown", "restructuring_actions"]

/-- Spec: `model_version: {id, name}`. -/
def modelVersionFields : List String := ["id", "name"]

/-- Spec: `contributions: [{rule_id, condition_id, expression, result, error?}]`. -/
def contributionFields : List String :=
  ["rule_id", "condition_id", "expression", "result", "error"]

/-- Spec: `coefficient_contributions: [{name, mode, input, coefficient, formula,
contribution, error}]`. -/
def coefficientContributionFields : List String :=
  ["name", "mode", "input", "coefficient", "formula", "contribution", "error"]

/-- Spec: `score_breakdown: {weighted_input_score, rule_impact_score, total_score,
coefficient_contributions}`. -/
def scoreBreakdownFields : List String :=
  ["weighted_input_score", "rule_impact_score", "total_score", "coefficient_contributions"]

/-- Spec: `restructuring_actions: [{template_id, template_name, payload}]`. -/
def restructuringActionFields : List String := ["template_id", "template_name", "payload"]

end SpecContract

/-! ## The deterministic scoring engine

The backend implementation (`backend/app/services/engine.py`, the
expression evaluator, config loader, state classifier and snapshot
persister behind `/api/v1/engine/run`) is not among the available
sources — only its TypeScript output contract, its callers and the
documentation are.  The definitions in this namespace are therefore
modelled from the specification (§4.1–§4.7), with exact rationals for
numbers. -/

namespace Engine

/-- Modelled from the spec: §4.1's expression grammar — arithmetic,
comparisons, boolean combinators, numeric literals and identifiers
resolved only from the bindings (the sandboxed evaluator itself is
missing from the sources). -/
inductive Expr
  | num (q : ℚ)
  | var (name : String)
  | add (a b : Expr)
  | sub (a b : Expr)
  | mul (a b : Expr)
  | div (a b : Expr)
  | lt (a b : Expr)
  | le (a b : Expr)
  | gt (a b : Expr)
  | ge (a b : Expr)
  | eq (a b : Expr)
  | ne (a b : Expr)
  | and (a b : Expr)
  | or (a b : Expr)
  | not (a : Expr)
  deriving Repr, DecidableEq

/-- Modelled from the spec: the typed evaluation errors of §4.1/§7
(bad expression syntax, unknown identifier, division by zero, type
mismatch). -/
inductive EvalErr
  | badSyntax
  | unknownIdent (name : String)
  | divZero
  | typeMismatch
  deriving Repr, DecidableEq

/-- Modelled from the spec: an evaluation result is a number or a
boolean. -/
inductive Val
  | num (q : ℚ)
  | bool (b : Bool)
  deriving Repr, DecidableEq

/-- Modelled from the spec: the named-variable input map of §4.1. -/
abbrev Bindings := List (String × ℚ)

/-- Modelled from the spec: identifier lookup, only from the bindings. -/
def lookupVar (env : Bindings) (x : String) : Option ℚ :=
  (env.find? (fun p => p.1 = x)).map (·.2)

/-- Modelled from the spec: `Evaluate(expression, bindings)` of §4.1 —
pure, deterministic, with typed errors that never crash the caller. -/
def Expr.eval : Expr → Bindings → Except EvalErr Val
  | .num q, _ => .ok (.num q)
  | .var x, env =>
    match lookupVar env x with
    | some v => .ok (.num v)
    | none => .error (.unknownIdent x)
  | .add a b, env =>
    match a.eval env, b.eval env with
    | .ok (.num x), .ok (.num y) => .ok (.num (x + y))
    | .error e, _ => .error e
    | _, .error e => .error e
    | _, _ => .error .typeMismatch
  | .sub a b, env =>
    match a.eval env, b.eval env with
    | .ok (.num x), .ok (.num y) => .ok (.num (x - y))
    | .error e, _ => .error e
    | _, .error e => .error e
    | _, _ => .error .typeMismatch
  | .mul a b, env =>
    match a.eval env, b.eval env with
    | .ok (.num x), .ok (.num y) => .ok (.num (x * y))
    | .error e, _ => .error e
    | _, .error e => .error e
    | _, _ => .error .typeMismatch
  | .div a b, env =>
    match a.eval env, b.eval env with
    | .ok (.num x), .ok (.num y) => if y = 0 then .error .divZero else .ok (.num (x / y))
    | .error e, _ => .error e
    | _, .error e => .error e
    | _, _ => .error .typeMismatch
  | .lt a b, env =>
    match a.eval env, b.eval env with
    | .ok (.num x), .ok (.num y) => .ok (.bool (x < y))
    | .error e, _ => .error e
    | _, .error e => .error e
    | _, _ => .error .typeMismatch
  | .le a b, env =>
    match a.eval env, b.eval env with
    | .ok (.num x), .ok (.num y) => .ok (.bool (x ≤ y))
    | .error e, _ => .error e
    | _, .error e => .error e
    | _, _ => .error .typeMismatch
  | .gt a b, env =>
    match a.eval env, b.eval env with
    | .ok (.num x), .ok (.num y) => .ok (.bool (y < x))
    | .error e, _ => .error e
    | _, .error e => .error e
    | _, _ => .error .typeMismatch
  | .ge a b, env =>
    match a.eval env, b.eval env with
    | .ok (.num x), .ok (.num y) => .ok (.bool (y ≤ x))
    | .error e, _ => .error e
    | _, .error e => .error e
    | _, _ => .error .typeMismatch
  | .eq a b, env =>
    match a.eval env, b.eval env with
    | .ok (.num x), .ok (.num y) => .ok (.bool (x = y))
    | .error e, _ => .error e
    | _, .error e => .error e
    | _, _ => .error .typeMismatch
  | .ne a b, env =>
    match a.eval env, b.eval env with
    | .ok (.num x), .ok (.num y) => .ok (.bool (x ≠ y))
    | .error e, _ => .error e
    | _, .error e => .error e
    | _, _ => .error .typeMismatch
  | .and a b, env =>
    match a.eval env, b.eval env with
    | .ok (.bool x), .ok (.bool y) => .ok (.bool (x && y))
    | .error e, _ => .error e
    | _, .error e => .error e
    | _, _ => .error .typeMismatch
  | .or a b, env =>
    match a.eval env, b.eval env with
    | .ok (.bool x), .ok (.bool y) => .ok (.bool (x || y))
    | .error e, _ => .error e
    | _, .error e => .error e
    | _, _ => .error .typeMismatch
  | .not a, env =>
    match a.eval env with
    | .ok (.bool x) => .ok (.bool (!x))
    | .error e => .error e
    | _ => .error .typeMismatch

/-- Modelled from the spec: the identifiers an expression mentions. -/
def Expr.vars : Expr → List String
  | .num _ => []
  | .var x => [x]
  | .add a b | .sub a b | .mul a b | .div a b
  | .lt a b | .le a b | .gt a b | .ge a b
  | .eq a b | .ne a b | .and a b | .or a b => a.vars ++ b.vars
  | .not a => a.vars

/-- Modelled from the spec: a stored expression; `none` models a row
whose expression text fails to parse (bad syntax error at evaluation). -/
def evalStored : Option Expr → Bindings → Except EvalErr Val
  | none, _ => .error .badSyntax
  | some e, env => e.eval env

/-- Modelled from the spec: coefficient mode, scalar or formula. -/
inductive CoefMode
  | scalar
  | formula
  deriving Repr, DecidableEq

/-- Modelled from the spec: a Coefficient row of the data model. -/
structure Coefficient where
  name : String
  weight : ℚ := 0
  mode : CoefMode := .scalar
  formula : Option Expr := none
  is_active : Bool := true
  deriving Repr, DecidableEq

/-- Modelled from the spec: a RuleCondition row. -/
structure RuleCondition where
  id : String
  expression : Option Expr
  is_active : Bool := true
  deriving Repr, DecidableEq

/-- Modelled from the spec: a RuleImpact row (scalar or formula, same
evaluation path as coefficients). -/
structure RuleImpact where
  mode : CoefMode := .scalar
  value : ℚ := 0
  formula : Option Expr := none
  is_active : Bool := true
  deriving Repr, DecidableEq

/-- Modelled from the spec: a Rule with its conditions and impacts. -/
structure Rule where
  id : String
  conditions : List RuleCondition := []
  impacts : List RuleImpact := []
  is_active : Bool := true
  deriving Repr, DecidableEq

/-- Modelled from the spec: a per-threshold comparator (§4.4 makes the
comparator part of the threshold row, `>=` being the stated default). -/
inductive Cmp
  | ge
  | gt
  deriving Repr, DecidableEq

/-- Modelled from the spec: a StateDefinition with its threshold row. -/
structure StateDef where
  name : String
  rank : Nat
  threshold : ℚ
  cmp : Cmp := .ge
  deriving Repr, DecidableEq

/-- Modelled from the spec: the resolved configuration a run uses;
`states` is ordered by rank descending, as the classifier scans from the
highest rank downward. -/
structure ResolvedConfig where
  model_version_id : String
  model_version_name : String
  coefficients : List Coefficient := []
  rules : List Rule := []
  states : List StateDef := []
  deriving Repr, DecidableEq

/-- Modelled from the spec: one entry of
`score_breakdown.coefficient_contributions`. -/
structure CoefContribution where
  name : String
  mode : CoefMode
  input : Option ℚ
  coefficient : Option ℚ
  formula : Option Expr
  contribution : ℚ
  error : Option EvalErr
  deriving Repr, DecidableEq

/-- Modelled from the spec: §4.3 step 1 — scalar mode multiplies the
input (0 when missing) by the weight; formula mode evaluates against
the full map; an error yields contribution 0, recorded inline. -/
def evalCoefficient (input : Bindings) (c : Coefficient) : CoefContribution :=
  match c.mode with
  | .scalar =>
    let iv := lookupVar input c.name
    { name := c.name, mode := .scalar, input := iv, coefficient := some c.weight,
      formula := none, contribution := iv.getD 0 * c.weight, error := none }
  | .formula =>
    match evalStored c.formula input with
    | .ok (.num q) =>
      { name := c.name, mode := .formula, input := none, coefficient := none,
        formula := c.formula, contribution := q, error := none }
    | .ok (.bool _) =>
      { name := c.name, mode := .formula, input := none, coefficient := none,
        formula := c.formula, contribution := 0, error := some .typeMismatch }
    | .error e =>
      { name := c.name, mode := .formula, input := none, coefficient := none,
        formula := c.formula, contribution := 0, error := some e }

/-- Modelled from the spec: a condition evaluates to a boolean; an
error (or a non-boolean value) counts as non-triggering and is
recorded. -/
def evalCondition (input : Bindings) (c : RuleCondition) : Bool × Option EvalErr :=
  match evalStored c.expression input with
  | .ok (.bool b) => (b, none)
  | .ok (.num _) => (false, some .typeMismatch)
  | .error e => (false, some e)

/-- Modelled from the spec: inactive conditions are excluded from
evaluation. -/
def activeConditions (r : Rule) : List RuleCondition :=
  r.conditions.filter (·.is_active)

/-- Modelled from the spec: §4.3 step 3 — a rule is triggered iff any
of its active conditions evaluates to `true`. -/
def ruleTriggered (input : Bindings) (r : Rule) : Bool :=
  (activeConditions r).any (fun c => (evalCondition input c).1)

/-- Modelled from the spec: one impact's numeric value (same path as
coefficients, error contributes 0). -/
def evalImpact (input : Bindings) (i : RuleImpact) : ℚ × Option EvalErr :=
  match i.mode with
  | .scalar => (i.value, none)
  | .formula =>
    match evalStored i.formula input with
    | .ok (.num q) => (q, none)
    | .ok (.bool _) => (0, some .typeMismatch)
    | .error e => (0, some e)

/-- Modelled from the spec: the sum of a rule's active impacts. -/
def ruleImpactSum (input : Bindings) (r : Rule) : ℚ :=
  ((r.impacts.filter (·.is_active)).map (fun i => (evalImpact input i).1)).sum

/-- Modelled from the spec: only a triggered rule adds its impacts. -/
def ruleContribution (input : Bindings) (r : Rule) : ℚ :=
  if ruleTriggered input r then ruleImpactSum input r else 0

/-- Modelled from the spec: one per-condition contribution record of §6. -/
structure Contribution where
  rule_id : String
  condition_id : String
  expression : Option Expr
  result : Bool
  error : Option EvalErr
  deriving Repr, DecidableEq

/-- Modelled from the spec: the per-condition records of one rule, in
condition order. -/
def conditionRecords (input : Bindings) (r : Rule) : List Contribution :=
  (activeConditions r).map (fun c =>
    { rule_id := r.id, condition_id := c.id, expression := c.expression,
      result := (evalCondition input c).1, error := (evalCondition input c).2 })

/-- Modelled from the spec: the §6 `score_breakdown` object. -/
structure ScoreBreakdown where
  weighted_input_score : ℚ
  rule_impact_score : ℚ
  total_score : ℚ
  coefficient_contributions : List CoefContribution
  deriving Repr, DecidableEq

/-- Modelled from the spec: the output of one engine run. -/
structure RunResult where
  model_version_id : String
  model_version_name : String
  rule_count : Nat
  triggered_rule_count : Nat
  conditions_evaluated : Nat
  contributions : List Contribution
  score_breakdown : ScoreBreakdown
  errors : List EvalErr
  deriving Repr, DecidableEq

/-- Modelled from the spec: inactive rules and coefficients are loaded
but excluded from evaluation. -/
def activeRules (cfg : ResolvedConfig) : List Rule :=
  cfg.rules.filter (·.is_active)

def activeCoefficients (cfg : ResolvedConfig) : List Coefficient :=
  cfg.coefficients.filter (·.is_active)

/-- Modelled from the spec: `Run(config, input)` of §4.3 — a total
function: evaluation errors are recovered locally (contribution 0,
error recorded) and never abort the run. -/
def run (cfg : ResolvedConfig) (input : Bindings) : RunResult :=
  let coefs := (activeCoefficients cfg).map (evalCoefficient input)
  let weighted := (coefs.map (·.contribution)).sum
  let rules := activeRules cfg
  let ruleImpact := (rules.map (fun r => ruleContribution input r)).sum
  let contribs := (rules.map (conditionRecords input)).flatten
  let impactErrors :=
    ((rules.filter (ruleTriggered input)).map (fun r =>
      (r.impacts.filter (·.is_active)).filterMap (fun i => (evalImpact input i).2))).flatten
  { model_version_id := cfg.model_version_id,
    model_version_name := cfg.model_version_name,
    rule_count := rules.length,
    triggered_rule_count := (rules.filter (ruleTriggered input)).length,
    conditions_evaluated := contribs.length,
    contributions := contribs,
    score_breakdown :=
      { weighted_input_score := weighted, rule_impact_score := ruleImpact,
        total_score := weighted + ruleImpact, coefficient_contributions := coefs },
    errors := (coefs.filterMap (·.error)) ++ (contribs.filterMap (·.error)) ++ impactErrors }

/-- Modelled from the spec: is a threshold row satisfied by the score
(`score >= threshold` for the default comparator, strict for `gt`)? -/
def thresholdSatisfied (score : ℚ) (s : StateDef) : Bool :=
  match s.cmp with
  | .ge => s.threshold ≤ score
  | .gt => s.threshold < score

/-- Modelled from the spec: `Classify(score, states)` of §4.4 — scan
the rank-descending state list for the first satisfied threshold; when
none is satisfied, fall back to the lowest-rank (last) state. -/
def classify (score : ℚ) (states : List StateDef) : Option StateDef :=
  match states.find? (thresholdSatisfied score) with
  | some s => some s
  | none => states.getLast?

/-- Modelled from the spec: §4.6 `Persist` — the next strictly
increasing version number within the session, assigned at persist time
(concurrent calls serialize through the transactional increment, so a
history is some sequence of these atomic steps). -/
def persistSnap {α : Type} (history : List (Nat × α)) (snap : α) : List (Nat × α) × Nat :=
  (history ++ [(history.length + 1, snap)], history.length + 1)

/-- Modelled from the spec: the session history after a sequence of
persist calls, starting from an empty session. -/
def persistAll {α : Type} (snaps : List α) : List (Nat × α) :=
  snaps.foldl (fun st s => (persistSnap st s).1) []

/-- Expression evaluation reads nothing but the bindings: two binding
maps that agree on the expression's identifiers produce identical
results (no ambient environment, no randomness, no clock). -/
theorem eval_ext (e : Expr) : ∀ (b₁ b₂ : Bindings),
    (∀ x ∈ e.vars, lookupVar b₁ x = lookupVar b₂ x) → e.eval b₁ = e.eval b₂ := by
  induction e <;> intro b₁ b₂ h <;>
    first
    | rfl
    | (rename_i x
       simp only [Expr.eval]
       rw [h x (by simp [Expr.vars])])
    | (rename_i a iha
       have ha := iha b₁ b₂ (fun x hx => h x (by simpa [Expr.vars] using hx))
       simp only [Expr.eval, ha])
    | (rename_i a b iha ihb
       have ha := iha b₁ b₂ (fun x hx => h x (by simp [Expr.vars, hx]))
       have hb := ihb b₁ b₂ (fun x hx => h x (by simp [Expr.vars, hx]))
       simp only [Expr.eval, ha, hb])

/-- `find?` on a rank-descending list returns an element of maximal rank
among those satisfying the predicate. -/
theorem find_first_rank (p : StateDef → Bool) :
    ∀ (states : List StateDef), states.Pairwise (fun a b => b.rank ≤ a.rank) →
      ∀ s, states.find? p = some s → ∀ t ∈ states, p t = true → t.rank ≤ s.rank := by
  intro states
  induction states with
  | nil => intro _ s h; cases h
  | cons a rest ih =>
    intro hp s h t ht hpt
    by_cases hpa : p a = true
    · rw [List.find?_cons_of_pos _ hpa] at h
      cases h
      rcases List.mem_cons.mp ht with rfl | ht
      · exact le_refl _
      · exact (List.pairwise_cons.mp hp).1 t ht
    · rw [List.find?_cons_of_neg _ hpa] at h
      rcases List.mem_cons.mp ht with rfl | ht
      · exact absurd hpt hpa
      · exact ih (List.pairwise_cons.mp hp).2 s h t ht hpt

/-- The last element of a rank-descending list has minimal rank. -/
theorem getLast_min_rank :
    ∀ (states : List StateDef), states.Pairwise (fun a b => b.rank ≤ a.rank) →
      ∀ l, states.getLast? = some l → ∀ t ∈ states, l.rank ≤ t.rank := by
  intro states
  induction states with
  | nil => intro _ l h; cases h
  | cons a rest ih =>
    intro hp l hl t ht
    cases rest with
    | nil =>
      simp only [List.getLast?_singleton] at hl
      cases hl
      rcases List.mem_singleton.mp ht with rfl
      exact le_refl _
    | cons b rest' =>
      have hl' : (b :: rest').getLast? = some l := by
        simpa [List.getLast?_cons_cons] using hl
      have hlmem : l ∈ b :: rest' := by
        obtain ⟨hne, hx⟩ := List.mem_getLast?_eq_getLast (l := b :: rest') hl'
        rw [hx]
        exact List.getLast_mem hne
      rcases List.mem_cons.mp ht with rfl | ht
      · exact (List.pairwise_cons.mp hp).1 l hlmem
      · exact ih (List.pairwise_cons.mp hp).2 l hl' t ht

/-- Folding `persistSnap` assigns the consecutive versions after the
existing history, whatever the starting history. -/
theorem persist_fold_versions {α : Type} :
    ∀ (snaps : List α) (st : List (Nat × α)),
      ((snaps.foldl (fun h s => (persistSnap h s).1) st).map Prod.fst)
        = st.map Prod.fst ++ List.range' (st.length + 1) snaps.length := by
  intro snaps
  induction snaps with
  | nil => intro st; simp
  | cons a rest ih =>
    intro st
    rw [List.foldl_cons]
    rw [ih]
    simp [persistSnap, List.range'_succ]

/-- Folding `persistSnap` only ever appends to the history. -/
theorem persist_fold_extends {α : Type} :
    ∀ (snaps : List α) (st : List (Nat × α)),
      st <+: snaps.foldl (fun h s => (persistSnap h s).1) st := by
  intro snaps
  induction snaps with
  | nil => intro st; simp
  | cons a rest ih =>
    intro st
    rw [List.foldl_cons]
    exact (List.prefix_append st _).trans (ih _)

/-- Modelled from the spec: the §8 example scenario — metric `revenue`
scalar weight 0.01, `cost` scalar weight −0.02, rule `HighCost` with
condition `cost > 220` and scalar impact +12, states CRITICAL_ZONE
(rank 2, ≥ 100), ELEVATED_RISK (rank 1, ≥ 70), NORMAL (rank 0,
baseline). -/
def exampleConfig : ResolvedConfig := {
  model_version_id := "mv-example",
  model_version_name := "example",
  coefficients := [
    { name := "revenue", weight := 1/100 },
    { name := "cost", weight := -(1/50) }],
  rules := [
    { id := "HighCost",
      conditions := [{ id := "HighCost-c1", expression := some (.gt (.var "cost") (.num 220)) }],
      impacts := [{ value := 12 }] }],
  states := [
    { name := "CRITICAL_ZONE", rank := 2, threshold := 100 },
    { name := "ELEVATED_RISK", rank := 1, threshold := 70 },
    { name := "NORMAL", rank := 0, threshold := 0 }] }

/-- Modelled from the spec: the §8 error example — a formula coefficient
`revenue - cost` next to a formula coefficient `revenue / 0`, and a rule
whose only condition divides by zero. -/
def errorConfig : ResolvedConfig := {
  model_version_id := "mv-errors",
  model_version_name := "errors",
  coefficients := [
    { name := "net", mode := .formula, formula := some (.sub (.var "revenue") (.var "cost")) },
    { name := "bad", mode := .formula, formula := some (.div (.var "revenue") (.num 0)) }],
  rules := [
    { id := "BadRule",
      conditions := [{ id := "BadRule-c1",
                       expression := some (.gt (.div (.var "revenue") (.num 0)) (.num 1)) }],
      impacts := [{ value := 3 }] }] }

/-- Modelled from the spec: a rule whose only condition row is inactive
(so its active condition list is empty). -/
def vacuousRule : Rule := {
  id := "Vacuous",
  conditions := [{ id := "Vacuous-c1", expression := some (.gt (.var "cost") (.num 0)),
                   is_active := false }],
  impacts := [{ value := 5 }] }

end Engine

/-! ## The claims -/

/-- C2: determinism — `Run` on equal `(config, input)` pairs produces
identical breakdowns, and expression evaluation depends on nothing but
the bindings: two binding maps that agree on the expression's
identifiers give identical results (no randomness, no clock, no ambient
state). -/
theorem determinism_C2 :
    (∀ (cfg : Engine.ResolvedConfig) (i₁ i₂ : Engine.Bindings), i₁ = i₂ →
        Engine.run cfg i₁ = Engine.run cfg i₂) ∧
    (∀ (e : Engine.Expr) (b₁ b₂ : Engine.Bindings),
        (∀ x ∈ e.vars, Engine.lookupVar b₁ x = Engine.lookupVar b₂ x) →
        e.eval b₁ = e.eval b₂) :=
  ⟨fun _ _ _ h => h ▸ rfl, fun e => Engine.eval_ext e⟩

/-- Witness for C2 at a concrete config, input and expression. -/
theorem determinism_C2_witness :
    Engine.run Engine.exampleConfig [("revenue", 1400), ("cost", 255)]
      = Engine.run Engine.exampleConfig [("revenue", 1400), ("cost", 255)] ∧
    (Engine.Expr.gt (.var "cost") (.num 220)).eval [("cost", 255)]
      = (Engine.Expr.gt (.var "cost") (.num 220)).eval [("cost", 255), ("margin", 8)] :=
  ⟨determinism_C2.1 Engine.exampleConfig _ _ rfl,
   determinism_C2.2 (Engine.Expr.gt (.var "cost") (.num 220)) _ _ (by decide)⟩

/-- C3: the total score is the weighted input score plus the rule impact
score; on the example configuration, `{revenue: 1400, cost: 255}` gives
weighted 8.9, triggers the one rule, total 20.9, state NORMAL, and
`{revenue: 640, cost: 335}` gives weighted −0.3, total 11.7, NORMAL. -/
theorem scoring_C3 :
    (∀ (cfg : Engine.ResolvedConfig) (input : Engine.Bindings),
        (Engine.run cfg input).score_breakdown.total_score =
          (Engine.run cfg input).score_breakdown.weighted_input_score +
          (Engine.run cfg input).score_breakdown.rule_impact_score) ∧
    ((Engine.run Engine.exampleConfig [("revenue", 1400), ("cost", 255)]).score_breakdown.weighted_input_score
        = 89/10 ∧
      (Engine.run Engine.exampleConfig [("revenue", 1400), ("cost", 255)]).triggered_rule_count = 1 ∧
      (Engine.run Engine.exampleConfig [("revenue", 1400), ("cost", 255)]).score_breakdown.total_score
        = 209/10 ∧
      (Engine.classify (209/10) Engine.exampleConfig.states).map (·.name) = some "NORMAL") ∧
    ((Engine.run Engine.exampleConfig [("revenue", 640), ("cost", 335)]).score_breakdown.weighted_input_score
        = -(3/10) ∧
      (Engine.run Engine.exampleConfig [("revenue", 640), ("cost", 335)]).triggered_rule_count = 1 ∧
      (Engine.run Engine.exampleConfig [("revenue", 640), ("cost", 335)]).score_breakdown.total_score
        = 117/10 ∧
      (Engine.classify (117/10) Engine.exampleConfig.states).map (·.name) = some "NORMAL") := by
  refine ⟨fun _ _ => rfl, ⟨?_, ?_, ?_, ?_⟩, ⟨?_, ?_, ?_, ?_⟩⟩ <;>
  · simp [Engine.run, Engine.activeCoefficients, Engine.activeRules, Engine.evalCoefficient,
      Engine.lookupVar, Engine.ruleTriggered, Engine.ruleContribution, Engine.ruleImpactSum,
      Engine.evalImpact, Engine.evalCondition, Engine.evalStored, Engine.conditionRecords,
      Engine.activeConditions, Engine.exampleConfig, Engine.classify,
      Engine.thresholdSatisfied, Engine.Expr.eval, List.filter, List.find?]
    norm_num

/-- C4: an evaluation error on a single coefficient or condition never
aborts the run — the offending contribution is 0, the error is recorded
inline, the errored condition counts as non-triggering, and the run
completes with a non-empty error list; `revenue / 0` next to
`revenue - cost` over `{revenue: 1000, cost: 300}` yields contributions
`[700, 0]` and a recorded division-by-zero error. -/
theorem error_handling_C4 :
    (∀ (input : Engine.Bindings) (c : Engine.Coefficient) (e : Engine.EvalErr),
        c.mode = .formula → Engine.evalStored c.formula input = .error e →
        (Engine.evalCoefficient input c).contribution = 0 ∧
        (Engine.evalCoefficient input c).error = some e) ∧
    (∀ (input : Engine.Bindings) (c : Engine.RuleCondition) (e : Engine.EvalErr),
        Engine.evalStored c.expression input = .error e →
        Engine.evalCondition input c = (false, some e)) ∧
    ((Engine.run Engine.errorConfig [("revenue", 1000), ("cost", 300)]).score_breakdown.coefficient_contributions.map
        (·.contribution) = [700, 0] ∧
      (Engine.run Engine.errorConfig [("revenue", 1000), ("cost", 300)]).errors ≠ [] ∧
      (Engine.run Engine.errorConfig [("revenue", 1000), ("cost", 300)]).triggered_rule_count = 0 ∧
      (Engine.run Engine.errorConfig [("revenue", 1000), ("cost", 300)]).contributions.map (·.result)
        = [false]) := by
  refine ⟨?_, ?_, ⟨?_, ?_, ?_, ?_⟩⟩
  · intro input c e hm he
    constructor <;> simp [Engine.evalCoefficient, hm, he]
  · intro input c e he
    simp [Engine.evalCondition, he]
  all_goals
    simp [Engine.run, Engine.activeCoefficients, Engine.activeRules, Engine.evalCoefficient,
      Engine.lookupVar, Engine.ruleTriggered, Engine.ruleContribution, Engine.ruleImpactSum,
      Engine.evalImpact, Engine.evalCondition, Engine.evalStored, Engine.conditionRecords,
      Engine.activeConditions, Engine.errorConfig, Engine.Expr.eval, List.filter,
      List.find?] <;>
    norm_num

/-- Witness for C4 at the concrete division-by-zero coefficient and
condition. -/
theorem error_handling_C4_witness :
    (Engine.evalCoefficient [("revenue", (1000 : ℚ))]
        { name := "bad", mode := .formula,
          formula := some (.div (.var "revenue") (.num 0)) }).contribution = 0 ∧
    (Engine.evalCoefficient [("revenue", (1000 : ℚ))]
        { name := "bad", mode := .formula,
          formula := some (.div (.var "revenue") (.num 0)) }).error = some .divZero ∧
    Engine.evalCondition [("revenue", (1000 : ℚ))]
        { id := "c", expression := some (.gt (.div (.var "revenue") (.num 0)) (.num 1)) }
      = (false, some .divZero) := by
  have h1 := error_handling_C4.1 [("revenue", (1000 : ℚ))]
    { name := "bad", mode := .formula, formula := some (.div (.var "revenue") (.num 0)) }
    .divZero rfl rfl
  have h2 := error_handling_C4.2.1 [("revenue", (1000 : ℚ))]
    { id := "c", expression := some (.gt (.div (.var "revenue") (.num 0)) (.num 1)) }
    .divZero rfl
  exact ⟨h1.1, h1.2, h2⟩

/-- C5: over any rank-descending state list, a score equal to a
`>=`-threshold satisfies it (boundary inclusive); the classifier's
answer has maximal rank among the satisfied states (higher rank wins)
and is satisfied whenever any state is; and when no threshold is
satisfied the classifier returns the last — lowest-rank — state. -/
theorem classify_C5 (score : ℚ) (states : List Engine.StateDef)
    (hsorted : states.Pairwise (fun a b => b.rank ≤ a.rank)) :
    (∀ s ∈ states, s.cmp = .ge → Engine.thresholdSatisfied s.threshold s = true) ∧
    (∀ s, Engine.classify score states = some s →
        ∀ t ∈ states, Engine.thresholdSatisfied score t = true → t.rank ≤ s.rank) ∧
    ((∃ t ∈ states, Engine.thresholdSatisfied score t = true) →
        ∃ s, Engine.classify score states = some s ∧
          Engine.thresholdSatisfied score s = true) ∧
    ((∀ t ∈ states, Engine.thresholdSatisfied score t = false) →
        Engine.classify score states = states.getLast? ∧
        (∀ l, states.getLast? = some l → ∀ t ∈ states, l.rank ≤ t.rank)) := by
  refine ⟨?_, ?_, ?_, ?_⟩
  · intro s _ h
    simp [Engine.thresholdSatisfied, h]
  · intro s hcl t ht hsat
    rcases hf : states.find? (Engine.thresholdSatisfied score) with _ | u
    · exact absurd hsat (by simpa using List.find?_eq_none.mp hf t ht)
    · have hus : u = s := by
        rw [Engine.classify, hf] at hcl
        exact Option.some_injective _ hcl
      subst hus
      exact Engine.find_first_rank _ states hsorted u hf t ht hsat
  · intro ⟨t, ht, hsat⟩
    have : (states.find? (Engine.thresholdSatisfied score)).isSome := by
      rw [List.find?_isSome]
      exact ⟨t, ht, hsat⟩
    rcases hf : states.find? (Engine.thresholdSatisfied score) with _ | u
    · rw [hf] at this; cases this
    · exact ⟨u, by rw [Engine.classify, hf], List.find?_some hf⟩
  · intro hall
    have hf : states.find? (Engine.thresholdSatisfied score) = none :=
      List.find?_eq_none.mpr (fun t ht => by simp [hall t ht])
    refine ⟨by rw [Engine.classify, hf], ?_⟩
    intro l hl t ht
    exact Engine.getLast_min_rank states hsorted l hl t ht

/-- Witness for C5 at score 75 over the example states (75 satisfies
ELEVATED_RISK but not CRITICAL_ZONE). -/
theorem classify_C5_witness :
    (∀ s ∈ Engine.exampleConfig.states, s.cmp = .ge →
        Engine.thresholdSatisfied s.threshold s = true) ∧
    (∀ s, Engine.classify 75 Engine.exampleConfig.states = some s →
        ∀ t ∈ Engine.exampleConfig.states,
          Engine.thresholdSatisfied 75 t = true → t.rank ≤ s.rank) ∧
    ((∃ t ∈ Engine.exampleConfig.states, Engine.thresholdSatisfied 75 t = true) →
        ∃ s, Engine.classify 75 Engine.exampleConfig.states = some s ∧
          Engine.thresholdSatisfied 75 s = true) ∧
    ((∀ t ∈ Engine.exampleConfig.states, Engine.thresholdSatisfied 75 t = false) →
        Engine.classify 75 Engine.exampleConfig.states = Engine.exampleConfig.states.getLast? ∧
        (∀ l, Engine.exampleConfig.states.getLast? = some l →
          ∀ t ∈ Engine.exampleConfig.states, l.rank ≤ t.rank)) :=
  classify_C5 75 Engine.exampleConfig.states (by decide)

/-- C6: starting from an empty session, any serialized sequence of
`Persist` calls yields version numbers `1, 2, …, n` — contiguous,
strictly increasing, starting at 1, with no duplicates, gaps or reuse —
and the history is append-only and ordered by version ascending. -/
theorem versioning_C6 :
    (∀ (snaps : List Engine.RunResult),
        (Engine.persistAll snaps).map Prod.fst = List.range' 1 snaps.length) ∧
    (∀ (snaps : List Engine.RunResult),
        ((Engine.persistAll snaps).map Prod.fst).Pairwise (· < ·)) ∧
    (∀ (snaps more : List Engine.RunResult),
        Engine.persistAll snaps <+: Engine.persistAll (snaps ++ more)) := by
  have hv : ∀ (snaps : List Engine.RunResult),
      (Engine.persistAll snaps).map Prod.fst = List.range' 1 snaps.length := by
    intro snaps
    have := Engine.persist_fold_versions snaps ([] : List (Nat × Engine.RunResult))
    simpa [Engine.persistAll] using this
  refine ⟨hv, ?_, ?_⟩
  · intro snaps
    rw [hv snaps]
    exact List.pairwise_lt_range' 1 snaps.length
  · intro snaps more
    rw [Engine.persistAll, Engine.persistAll, List.foldl_append]
    exact Engine.persist_fold_extends more _

/-- C7: a rule with no active conditions never triggers and contributes
0 for every input; a rule triggers iff some active condition evaluates
to true; and a non-triggered rule contributes 0. -/
theorem vacuous_rule_C7 :
    (∀ (input : Engine.Bindings) (r : Engine.Rule), Engine.activeConditions r = [] →
        Engine.ruleTriggered input r = false ∧ Engine.ruleContribution input r = 0) ∧
    (∀ (input : Engine.Bindings) (r : Engine.Rule),
        Engine.ruleTriggered input r = true ↔
          ∃ c ∈ Engine.activeConditions r, (Engine.evalCondition input c).1 = true) ∧
    (∀ (input : Engine.Bindings) (r : Engine.Rule),
        Engine.ruleTriggered input r = false → Engine.ruleContribution input r = 0) := by
  refine ⟨?_, ?_, ?_⟩
  · intro input r h
    refine ⟨by simp [Engine.ruleTriggered, h], ?_⟩
    simp [Engine.ruleContribution, Engine.ruleTriggered, h]
  · intro input r
    simp [Engine.ruleTriggered, List.any_eq_true]
  · intro input r h
    simp [Engine.ruleContribution, h]

/-- Witness for C7 at a rule whose only condition row is inactive. -/
theorem vacuous_rule_C7_witness :
    (Engine.ruleTriggered [("cost", (999 : ℚ))] Engine.vacuousRule = false ∧
      Engine.ruleContribution [("cost", (999 : ℚ))] Engine.vacuousRule = 0) ∧
    Engine.ruleContribution [("cost", (999 : ℚ))] Engine.vacuousRule = 0 :=
  ⟨vacuous_rule_C7.1 [("cost", 999)] Engine.vacuousRule (by decide),
   vacuous_rule_C7.2.2 [("cost", 999)] Engine.vacuousRule
     (vacuous_rule_C7.1 [("cost", 999)] Engine.vacuousRule (by decide)).1⟩

/-- A concrete audit replay payload for C1 whose stored input differs
from the input inside the replayed snapshot. -/
def c1Stored : JObj :=
  .cons "model_version_id" (.str "mv-1") (.cons "state" (.str "NORMAL")
    (.cons "total_score" (.str "20.9") (.cons "error" .null
      (.cons "input" (.str "revenue=1400") .nil))))

def c1Replay : JObj :=
  .cons "model_version" (.obj (.cons "id" (.str "mv-1") .nil))
    (.cons "state" (.str "NORMAL")
      (.cons "score_breakdown" (.obj (.cons "total_score" (.str "20.9") .nil))
        (.cons "input" (.str "other-input") .nil)))

def c1Result : JVal :=
  .obj (.cons "stored_payload" (.obj c1Stored) (.cons "replay_snapshot" (.obj c1Replay) .nil))

/-- The input row `replayComparisonRows` produces for `c1Result`. -/
def c1InputRow : ReplayRow :=
  { field := "input", stored := "revenue=1400", replayed := "revenue=1400", isMatch := true }

/-- C1 counterexample: at `c1Result` the stored input (`revenue=1400`)
differs from the replay snapshot's input (`other-input`), yet the
console's input row is flagged as matching — it renders the stored input
on both sides — so a row is not flagged matching iff the stored payload
value equals the corresponding replay-snapshot value. -/
theorem replay_rows_C1_counterexample :
    (replayComparisonRows (some c1Result)).map (fun row => (row.field, row.isMatch))
      = [("model_version_id", true), ("state", true), ("total_score", true),
         ("error", true), ("input", true)] ∧
    asText (getField (JVal.obj c1Stored) "input") = "revenue=1400" ∧
    asText (getField (JVal.obj c1Replay) "input") = "other-input" ∧
    asText (getField (JVal.obj c1Stored) "input")
      ≠ asText (getField (JVal.obj c1Replay) "input") := by
  decide

/-- C1 amended: the replay console produces exactly the five rows
model_version_id, state, total_score, error and input; every row is
flagged matching iff its two *rendered texts* are equal — exact string
equality, not a floating-point tolerance — and the input row renders the
stored input on both sides, so it is always flagged matching (the error
row's replayed side is the top-level `replay_error`, not a
`replay_snapshot` field). -/
theorem replay_rows_C1 (j : JVal) :
    ((replayComparisonRows (some j)).map (·.field)
      = ["model_version_id", "state", "total_score", "error", "input"]) ∧
    ((replayComparisonRows (some j)).all
        (fun row => row.isMatch == (row.stored == row.replayed)) = true) ∧
    (∀ row ∈ replayComparisonRows (some j), row.field = "input" →
      row.stored = row.replayed ∧ row.isMatch = true) := by
  refine ⟨rfl, ?_, ?_⟩
  · simp [replayComparisonRows]
  · intro row hrow hfield
    simp only [replayComparisonRows, List.map_cons, List.map_nil, List.mem_cons,
      List.not_mem_nil, or_false] at hrow
    rcases hrow with h | h | h | h | h <;> subst h <;> simp_all

/-- Witness for C1's amended row property at the concrete payload. -/
theorem replay_rows_C1_witness :
    c1InputRow.stored = c1InputRow.replayed ∧ c1InputRow.isMatch = true :=
  (replay_rows_C1 c1Result).2.2 c1InputRow (by decide) rfl

/-- C8 counterexample: the declared contract types carry more than the
claimed shape — `EngineSnapshot` also has `scores`, its `model_version`
also has `tenant_id`, and `RestructuringAction` also has
`restructuring_rule_id` — so the output does not carry *exactly* the
claimed shape. -/
theorem contract_shape_C8_counterexample :
    TypesTs.engineSnapshotFields ≠ SpecContract.outputFields ∧
    "scores" ∈ TypesTs.engineSnapshotFields ∧
    "scores" ∉ SpecContract.outputFields ∧
    "tenant_id" ∈ TypesTs.modelVersionRefFields ∧
    "tenant_id" ∉ SpecContract.modelVersionFields ∧
    "restructuring_rule_id" ∈ TypesTs.restructuringActionFields ∧
    "restructuring_rule_id" ∉ SpecContract.restructuringActionFields := by
  decide

/-- C8 amended: the declared output carries every field of the claimed
contract shape, in order (the claimed field lists are sublists of the
declared ones), and the contribution, coefficient-contribution and
score-breakdown shapes match exactly; the declared types additionally
carry `scores`, `model_version.tenant_id` and
`restructuring_rule_id`. -/
theorem contract_shape_C8 :
    List.Sublist SpecContract.outputFields TypesTs.engineSnapshotFields ∧
    List.Sublist SpecContract.modelVersionFields TypesTs.modelVersionRefFields ∧
    List.Sublist SpecContract.restructuringActionFields TypesTs.restructuringActionFields ∧
    SpecContract.contributionFields = TypesTs.contributionFields ∧
    SpecContract.coefficientContributionFields = TypesTs.coefficientContributionFields ∧
    SpecContract.scoreBreakdownFields = TypesTs.scoreBreakdownFields := by
  decide

/-- C9 counterexample: on `"legacy stack"` the simulation's keyword
fallback records technicalDebt 92 while the workspace page's
`extractFromText` records nothing, so the two parses are not
equivalent. -/
theorem extract_equiv_C9_counterexample :
    Frontend.extractFromText "legacy stack" none ≠ SimFlow.extractFromText "legacy stack" ∧
    Frontend.extractFromText "legacy stack" none
      = { revenue := none, cost := none, margin := none, technicalDebt := none } ∧
    SimFlow.extractFromText "legacy stack"
      = { revenue := none, cost := none, margin := none, technicalDebt := some 92 } := by
  decide

/-- C9 amended: with no asked-field hint the two `extractFromText`
functions agree on the revenue, cost and margin components for every
input text, and on technicalDebt whenever a numeric debt pattern
matches; they differ only in the technical-debt keyword fallback
(the page and the simulation use different keyword tiers, e.g.
`legacy stack`). -/
theorem extract_equiv_C9 (text : String) :
    (Frontend.extractFromText text none).revenue = (SimFlow.extractFromText text).revenue ∧
    (Frontend.extractFromText text none).cost = (SimFlow.extractFromText text).cost ∧
    (Frontend.extractFromText text none).margin = (SimFlow.extractFromText text).margin ∧
    (∀ v : ℚ, debtScan debtPatterns (normText text) = some v →
      (Frontend.extractFromText text none).technicalDebt
        = (SimFlow.extractFromText text).technicalDebt) :=
  ⟨fe_sim_revenue text, fe_sim_cost text, fe_sim_margin text none,
   fun v h => fe_sim_debt text none v h⟩

/-- Witness for C9 at `"debt 40"`, where the numeric debt pattern
matches. -/
theorem extract_equiv_C9_witness :
    (Frontend.extractFromText "debt 40" none).revenue
      = (SimFlow.extractFromText "debt 40").revenue ∧
    (Frontend.extractFromText "debt 40" none).cost
      = (SimFlow.extractFromText "debt 40").cost ∧
    (Frontend.extractFromText "debt 40" none).margin
      = (SimFlow.extractFromText "debt 40").margin ∧
    (Frontend.extractFromText "debt 40" none).technicalDebt
      = (SimFlow.extractFromText "debt 40").technicalDebt :=
  ⟨(extract_equiv_C9 "debt 40").1, (extract_equiv_C9 "debt 40").2.1,
   (extract_equiv_C9 "debt 40").2.2.1,
   (extract_equiv_C9 "debt 40").2.2.2 (parseDec ['4', '0']) rfl⟩

/-- C10: whenever either `extractFromText` assigns a margin value, that
value lies in the closed interval [0, 100]; an out-of-range numeric
margin match is discarded, never recorded. -/
theorem margin_range_C10 (text : String) (hint : Option AskedField) :
    (match (Frontend.extractFromText text hint).margin with
      | none => True
      | some v => 0 ≤ v ∧ v ≤ 100) ∧
    (match (SimFlow.extractFromText text).margin with
      | none => True
      | some v => 0 ≤ v ∧ v ≤ 100) := by
  have hfe : (Frontend.extractFromText text hint).margin
      = marginScan marginPatterns (normText text) := rfl
  have hsim : (SimFlow.extractFromText text).margin
      = marginScan marginPatterns (normText text) := rfl
  rw [hfe, hsim]
  rcases h : marginScan marginPatterns (normText text) with _ | v
  · exact ⟨trivial, trivial⟩
  · exact ⟨marginScan_bounds _ _ v h, marginScan_bounds _ _ v h⟩

end Strategos
